import Mathlib

/-!
Shallow embedding of `pysingfel/detector/base.py` (class `DetectorBase`).

Modelling conventions:
* numpy float arrays are modelled as `List ℚ` (exact rational arithmetic);
  3-vectors as `ℚ × ℚ × ℚ`; element-wise numpy operations as `List.zipWith`
  or `List.map`.
* numpy's global random stream is modelled as a function `rng : Nat → ℚ`
  giving the n-th unit-uniform draw (a value in `[0,1)`), together with an
  explicit draw index that each sampling operation advances;
  `np.random.uniform(lo, hi)` consumes one draw `u` and yields
  `lo + (hi - lo) * u`.  `np.random.poisson` applied to an array is modelled
  as a state-threading map with an abstract per-element sampler
  `psn : σ → ℚ → ℤ × σ`.
* square roots: the source compares Euclidean radii and distances
  (`maxRadius`, `distance.cdist`) only through the order relation
  `dist < 2 * radius_max`; since `Real.sqrt` is monotone and both sides are
  nonnegative this is equivalent to `dist² < (2 * radius_max)²`, so the
  embedding carries squared radii and squared distances
  (`maxRadiusSq`, `distSq`) throughout.  Where a square root appears as a
  value (`np.sqrt` in `add_static_noise`, the wavevector norm in
  `preferred_voxel_length`) it is abstracted as a function parameter
  `rt : ℚ → ℚ`.
* external collaborators (the GPU diffraction kernel, the geometry
  correction routine `pg.get_reciprocal_position_and_correction`, the
  complex exponential `θ ↦ exp(i·θ)`) are abstract function parameters.
* complex pixel fields are pairs `re × im` over ℚ with the usual Gaussian
  arithmetic; `np.square(np.abs(z))` is `re² + im²`.
* Python exceptions and the recursion limit are modelled by the result type
  `PyResult`.
-/

namespace Pysingfel

/-- Real- or reciprocal-space 3-vector. -/
abbrev V3 : Type := ℚ × ℚ × ℚ

/-- Complex pixel value, as a pair (real part, imaginary part). -/
abbrev Cx : Type := ℚ × ℚ

/-- Complex addition on `Cx`. -/
def cadd (a b : Cx) : Cx := (a.1 + b.1, a.2 + b.2)

/-- Complex multiplication on `Cx`. -/
def cmul (a b : Cx) : Cx := (a.1 * b.1 - a.2 * b.2, a.1 * b.2 + a.2 * b.1)

/-- Squared magnitude `np.square(np.abs(z))` of a complex value. -/
def cnormSq (a : Cx) : ℚ := a.1 ^ 2 + a.2 ^ 2

/-- Dot product of two 3-vectors (`np.dot` of a pixel row with a coordinate). -/
def dot3 (a b : V3) : ℚ := a.1 * b.1 + a.2.1 * b.2.1 + a.2.2 * b.2.2

/-- Squared Euclidean norm of a 3-vector. -/
def normSq (a : V3) : ℚ := a.1 ^ 2 + a.2.1 ^ 2 + a.2.2 ^ 2

/-- Squared Euclidean distance between two 3-vectors (entry of
`distance.cdist(coords, coords, euclidean)`, squared). -/
def distSq (a b : V3) : ℚ :=
  (a.1 - b.1) ^ 2 + (a.2.1 - b.2.1) ^ 2 + (a.2.2 - b.2.2) ^ 2

/-- Python exceptions and the interpreter recursion limit, as observable
outcomes of a call. -/
inductive PyErr : Type where
  /-- `TypeError` from passing a float as the `axis` argument of `np.min`,
  or an integer axis on a 0-d array. -/
  | axisError : PyErr
  /-- `TypeError` from `np.abs(None)` when the accumulator was never set. -/
  | noneAbsError : PyErr
  /-- `RecursionError` / non-termination of unbounded recursion, modelled by
  fuel exhaustion. -/
  | recursionLimit : PyErr
  /-- `ValueError` from `np.max` of an empty array. -/
  | emptyMax : PyErr
  deriving DecidableEq, Repr

/-- Result of a Python call: a value or a raised exception. -/
inductive PyResult (α : Type) : Type where
  | ok (a : α) : PyResult α
  | err (e : PyErr) : PyResult α
  deriving DecidableEq, Repr

/-- A particle species: the `particle` collaborator, of which `DetectorBase`
only reads `atom_pos` (a K×3 array of atomic positions). -/
structure Particle where
  atom_pos : List V3
  deriving DecidableEq, Repr

/-- Beam collaborator: the fields of `beam` read by
`initialize_pixels_with_beam` (`get_wavevector()`, `Polarization`,
`get_photons_per_pulse()`, `get_focus_area()`). -/
structure Beam where
  wavevector : V3
  polarization : V3
  photons_per_pulse : ℚ
  focus_area : ℚ
  deriving DecidableEq, Repr

/-- The 4-tuple returned by the external geometry collaborator
`pg.get_reciprocal_position_and_correction`. -/
structure GeomResult where
  pixel_position_reciprocal : List V3
  pixel_distance_reciprocal : List ℚ
  polarization_correction : List ℚ
  solid_angle_per_pixel : List ℚ
  deriving DecidableEq, Repr

/-- The detector state: the fields of `DetectorBase` that the embedded
methods read or write. -/
structure Detector where
  distance : ℚ
  pixel_width : ℚ
  pixel_height : ℚ
  pixel_area : ℚ
  orientation : V3
  pixel_position : List V3
  pixel_position_reciprocal : List V3
  pixel_distance_reciprocal : List ℚ
  polarization_correction : List ℚ
  solid_angle_per_pixel : List ℚ
  linear_correction : List ℚ
  pixel_rms : ℚ
  deriving DecidableEq, Repr

/-- `self.Thomson_factor = 2.817895019671143 * 2.817895019671143 * 1e-30`
(set in `DetectorBase.__init__`). -/
def Thomson_factor : ℚ := 2.817895019671143 * 2.817895019671143 * 1e-30

/-- `DetectorBase.initialize_pixels_with_beam`: obtain the reciprocal
geometry and the per-pixel corrections from the external collaborator, then
`linear_correction = intensity * Thomson_factor
  * np.multiply(polarization_correction, solid_angle_per_pixel)`
with `intensity = photons_per_pulse / focus_area`.  `get_recip` stands for
`pg.get_reciprocal_position_and_correction`, applied to the same arguments
as in the source. -/
def initialize_pixels_with_beam
    (get_recip : List V3 → V3 → V3 → ℚ → V3 → GeomResult)
    (d : Detector) (beam : Beam) : Detector :=
  let intensity := beam.photons_per_pulse / beam.focus_area
  let g := get_recip d.pixel_position beam.polarization beam.wavevector
    d.pixel_area d.orientation
  { d with
    pixel_position_reciprocal := g.pixel_position_reciprocal
    pixel_distance_reciprocal := g.pixel_distance_reciprocal
    polarization_correction := g.polarization_correction
    solid_angle_per_pixel := g.solid_angle_per_pixel
    linear_correction :=
      (g.polarization_correction.zipWith (· * ·) g.solid_angle_per_pixel).map
        (fun x => intensity * Thomson_factor * x) }

/-- `DetectorBase.add_solid_angle_correction`:
`np.multiply(pattern, self.solid_angle_per_pixel)`. -/
def add_solid_angle_correction (d : Detector) (pattern : List ℚ) : List ℚ :=
  pattern.zipWith (· * ·) d.solid_angle_per_pixel

/-- `DetectorBase.add_polarization_correction`:
`np.multiply(pattern, self.polarization_correction)`. -/
def add_polarization_correction (d : Detector) (pattern : List ℚ) : List ℚ :=
  pattern.zipWith (· * ·) d.polarization_correction

/-- `DetectorBase.add_correction`:
`np.multiply(pattern, self.linear_correction)`. -/
def add_correction (d : Detector) (pattern : List ℚ) : List ℚ :=
  pattern.zipWith (· * ·) d.linear_correction

/-- `np.random.poisson` applied element-wise to an array: thread the random
state through an abstract one-element Poisson sampler `psn`, drawing one
integer per element with the element as the mean, left to right. -/
def poissonMap {σ : Type} (psn : σ → ℚ → ℤ × σ) :
    σ → List ℚ → List ℤ × σ
  | s, [] => ([], s)
  | s, x :: xs =>
    let v := psn s x
    let rest := poissonMap psn v.2 xs
    (v.1 :: rest.1, rest.2)

/-- `DetectorBase.add_quantization`: `np.random.poisson(pattern)`. -/
def add_quantization {σ : Type} (psn : σ → ℚ → ℤ × σ) (s : σ)
    (pattern : List ℚ) : List ℤ × σ :=
  poissonMap psn s pattern

/-- `DetectorBase.add_correction_and_quantization`:
`np.random.poisson(np.multiply(pattern, self.linear_correction))`. -/
def add_correction_and_quantization {σ : Type} (d : Detector)
    (psn : σ → ℚ → ℤ × σ) (s : σ) (pattern : List ℚ) : List ℤ × σ :=
  poissonMap psn s (pattern.zipWith (· * ·) d.linear_correction)

/-- `DetectorBase.add_static_noise`:
`pattern + np.random.uniform(0, 2 * np.sqrt(3 * self.pixel_rms))`.
One scalar uniform draw (index `k`, advanced by one) is broadcast-added to
every element; `rt` abstracts `np.sqrt`.  The returned list is fresh
(`pattern +` scalar allocates a new array; the input is not mutated). -/
def add_static_noise (rt : ℚ → ℚ) (d : Detector) (rng : Nat → ℚ) (k : Nat)
    (pattern : List ℚ) : List ℚ × Nat :=
  let draw := 0 + (2 * rt (3 * d.pixel_rms) - 0) * rng k
  (pattern.map (fun x => x + draw), k + 1)

/-- A particle-counts mapping, `particles : dict` in the source, modelled as
an ordered association list species ↦ count (Python dicts iterate in
insertion order). -/
abbrev ParticleCounts : Type := List (Particle × Nat)

/-- `N = sum(particles.values())` in `DetectorBase.distribute`. -/
def totalCount (particles : ParticleCounts) : Nat :=
  (particles.map (fun pn => pn.2)).sum

/-- The `state` list built at the top of `DetectorBase.distribute`: each
species repeated by its count, in mapping order. -/
def expandState (particles : ParticleCounts) : List Particle :=
  (particles.map (fun pn => List.replicate pn.2 pn.1)).flatten

/-- `DetectorBase.maxRadius`, carried in squared form: the running maximum
over all species of the squared centroid-recentred atomic norms
(`radius_arr = particle.atom_pos - np.mean(particle.atom_pos, axis=0)`,
`radius = sqrt(row[0]**2 + row[1]**2 + row[2]**2)`, running strict max,
starting from `radius_current = 0`).  Because `sqrt` is monotone and all
radii are nonnegative, the source's `radius_max` equals
`sqrt (maxRadiusSq particles)`. -/
def maxRadiusSq (particles : ParticleCounts) : ℚ :=
  particles.foldl
    (fun acc pn =>
      let n : ℚ := (pn.1.atom_pos.length : ℚ)
      let cx := (pn.1.atom_pos.map (fun v => v.1)).sum / n
      let cy := (pn.1.atom_pos.map (fun v => v.2.1)).sum / n
      let cz := (pn.1.atom_pos.map (fun v => v.2.2)).sum / n
      pn.1.atom_pos.foldl
        (fun r row => max r (normSq (row.1 - cx, row.2.1 - cy, row.2.2 - cz)))
        acc)
    0

/-- The N candidate coordinates of one `distribute` attempt: row `i` is
`(beam_focus_radius * uniform(-1,1), beam_focus_radius * uniform(-1,1),
jet_radius * uniform(-1,1))`, consuming unit draws `k + 3*i`, `k + 3*i + 1`,
`k + 3*i + 2` of the stream (`uniform(-1,1) = -1 + 2*u`). -/
def sampleCoords (N : Nat) (beam_focus_radius jet_radius : ℚ)
    (rng : Nat → ℚ) (k : Nat) : List V3 :=
  (List.range N).map (fun i =>
    (beam_focus_radius * (-1 + 2 * rng (k + 3 * i)),
     beam_focus_radius * (-1 + 2 * rng (k + 3 * i + 1)),
     jet_radius * (-1 + 2 * rng (k + 3 * i + 2))))

/-- The `checkList` comprehension of `DetectorBase.distribute`:
`[collision[i][j] for i in range(N) for j in range(N) if j > i]`, where
`collision[i][j] = dist_matrix[i][j] < 2 * radius_max`; here compared in
squared form (`distSq < 4 * radius_maxSq`, equivalent since both sides of
the source comparison are nonnegative). -/
def checkList (coords : List V3) (radius_maxSq : ℚ) : List Bool :=
  ((List.range coords.length).map (fun i =>
    ((List.range coords.length).filter (fun j => i < j)).map (fun j =>
      decide (distSq (coords.getD i (0, 0, 0)) (coords.getD j (0, 0, 0)) <
        4 * radius_maxSq)))).flatten

/-- `DetectorBase.distribute`.  One attempt samples `N` coordinates and
computes the collision check list; on any collision the source calls
`self.distribute(...)` recursively — and DISCARDS the recursive result —
then executes `return state, coords` with its OWN freshly sampled
(colliding) `coords`.  The embedding reproduces this faithfully: the
recursive call only reproduces the source's control flow (it must
terminate for the outer call to return, hence `fuel`, modelling Python's
recursion limit), but its value is thrown away.  Each attempt consumes
`3 * N` unit draws. -/
def distribute (fuel : Nat) (particles : ParticleCounts)
    (beam_focus_radius jet_radius : ℚ) (rng : Nat → ℚ) (k : Nat) :
    PyResult (List Particle × List V3) :=
  match fuel with
  | 0 => .err .recursionLimit
  | fuel + 1 =>
    let state := expandState particles
    let radius_maxSq := maxRadiusSq particles
    let N := totalCount particles
    let coords := sampleCoords N beam_focus_radius jet_radius rng k
    if (checkList coords radius_maxSq).any (fun b => b) then
      match distribute fuel particles beam_focus_radius jet_radius rng
        (k + 3 * N) with
      | .err e => .err e
      | .ok _ => .ok (state, coords)
    else .ok (state, coords)

/-- `DetectorBase.get_fxs_photons`.  `kernel` stands for
`get_pattern_without_corrections(particle, return_type="complex_field")`
(the external GPU diffraction kernel evaluated on
`pixel_position_reciprocal`); `cis` abstracts `θ ↦ np.exp(1j * θ)` and
`c` the constant `2 * np.pi * 1e-10`, so the per-pixel phase factor is
`cis (c * dot3 pixel coords_i)`.  The loop multiplies each particle's field
by its phase factor and accumulates into `raw_data` (initially `None`);
`np.abs(None)` at the end raises when no particle was placed. -/
def get_fxs_photons {σ : Type} (fuel : Nat)
    (kernel : Particle → List Cx) (cis : ℚ → Cx) (c : ℚ)
    (d : Detector) (psn : σ → ℚ → ℤ × σ) (s : σ)
    (particles : ParticleCounts) (beam_focus_radius jet_radius : ℚ)
    (rng : Nat → ℚ) (k : Nat) : PyResult (List ℤ × σ) :=
  match distribute fuel particles beam_focus_radius jet_radius rng k with
  | .err e => .err e
  | .ok sc =>
    let fields : List (List Cx) :=
      (sc.1.zip sc.2).map (fun px =>
        (kernel px.1).zipWith cmul
          (d.pixel_position_reciprocal.map (fun r => cis (c * dot3 r px.2))))
    match fields with
    | [] => .err .noneAbsError
    | f :: fs =>
      let raw_data := fs.foldl (fun acc g => acc.zipWith cadd g) f
      .ok (add_correction_and_quantization d psn s (raw_data.map cnormSq))

/-- `np.min(a, b)` as called in `preferred_voxel_length`, with scalar `a`
and the second positional argument `b` bound to numpy's `axis` parameter:
a float axis raises `TypeError` (it has no `__index__`), and an integer
axis is out of bounds for the 0-d array `np.asarray(a)`.  Either way the
call raises; it never computes a minimum. -/
def npMinScalarAxis (_a _axis : ℚ) : PyResult ℚ := .err .axisError

/-- `DetectorBase.preferred_voxel_length`:
`voxel_length = np.sqrt(np.sum(np.square(wave_vector)))` then
`voxel_length /= self.distance * np.min(self.pixel_width, self.pixel_height)`.
`rt` abstracts `np.sqrt`. -/
def preferred_voxel_length (rt : ℚ → ℚ) (d : Detector) (wave_vector : V3) :
    PyResult ℚ :=
  let voxel_length := rt (normSq wave_vector)
  match npMinScalarAxis d.pixel_width d.pixel_height with
  | .err e => .err e
  | .ok m => .ok (voxel_length / (d.distance * m))

/-- `DetectorBase.preferred_reciprocal_mesh_number`:
`voxel_half_num_1d = int(np.floor_divide(max(pixel_distance_reciprocal),
voxel_length) + 1)`; `voxel_num_1d = int(2 * voxel_half_num_1d + 1)`.
`np.max` of an empty array raises. -/
def preferred_reciprocal_mesh_number (rt : ℚ → ℚ) (d : Detector)
    (wave_vector : V3) : PyResult ℤ :=
  match preferred_voxel_length rt d wave_vector with
  | .err e => .err e
  | .ok voxel_length =>
    match d.pixel_distance_reciprocal with
    | [] => .err .emptyMax
    | x :: xs =>
      let reciprocal_space_range := xs.foldl max x
      let voxel_half_num_1d : ℤ :=
        Rat.floor (reciprocal_space_range / voxel_length) + 1
      .ok (2 * voxel_half_num_1d + 1)

/-- The FXS pattern as the specification describes it: each placed
particle's complex field is multiplied element-wise by the phase factor
`exp(i * 2π * 1e-10 * dot(pixel_position_reciprocal, coordinate_i))`
(here `cis (c * dot3 r x)` with `c` the constant and `cis` the complex
exponential), the phase-shifted complex fields of all placed particles are
summed pixel-wise by complex addition (from the zero field), the sum is
converted to intensity by squared magnitude, and that intensity is passed
through the combined linear-correction plus Poisson-quantization
primitive. -/
def fxs_photons_spec {σ : Type} (kernel : Particle → List Cx) (cis : ℚ → Cx)
    (c : ℚ) (d : Detector) (psn : σ → ℚ → ℤ × σ) (s : σ)
    (state : List Particle) (coords : List V3) : List ℤ × σ :=
  let phased : List (List Cx) :=
    (state.zip coords).map (fun px =>
      (kernel px.1).zipWith cmul
        (d.pixel_position_reciprocal.map (fun r => cis (c * dot3 r px.2))))
  let total : List Cx :=
    phased.foldl (fun acc g => acc.zipWith cadd g)
      (List.replicate d.pixel_position_reciprocal.length (0, 0))
  add_correction_and_quantization d psn s (total.map cnormSq)

/-- Detector state as left by `DetectorBase.__init__` (numpy `None` fields
as empty arrays). -/
def det0 : Detector :=
  { distance := 1, pixel_width := 0, pixel_height := 0, pixel_area := 0
    orientation := (0, 0, 1), pixel_position := []
    pixel_position_reciprocal := [], pixel_distance_reciprocal := []
    polarization_correction := [], solid_angle_per_pixel := []
    linear_correction := [], pixel_rms := 0 }

/-- A unit-uniform stream that always draws 1/2. -/
def rngHalf : Nat → ℚ := fun _ => 1 / 2

/-- A stand-in square root returning 1 (only the call structure matters). -/
def rtOne : ℚ → ℚ := fun _ => 1

/-- The identity as a stand-in square root. -/
def rtId : ℚ → ℚ := fun q => q

/-- A Poisson sampler that always draws 0 and keeps its state. -/
def psnZero : Unit → ℚ → ℤ × Unit := fun s _ => (0, s)

/-- A single-atom species sitting at the origin (`radius_max = 0`). -/
def partOrigin : Particle := ⟨[(0, 0, 0)]⟩

/-- A two-atom species with atoms at `(±1, 0, 0)`, so its centroid-recentred
maximal radius is 1. -/
def partC1 : Particle := ⟨[(1, 0, 0), (-1, 0, 0)]⟩

/-- A unit-uniform stream whose first six draws are 1/2 (both sampled
positions at the origin — a colliding batch), and whose next six draws
place the two particles far apart (a non-colliding batch). -/
def rngC1 : Nat → ℚ := fun n =>
  if n < 6 then 1 / 2 else if n < 9 then 0 else 999 / 1000

/-- A detector with realistic positive pixel pitches (50 μm × 100 μm) and a
10 cm distance. -/
def detC6 : Detector :=
  { det0 with
    distance := 1 / 10
    pixel_width := 1 / 20000
    pixel_height := 1 / 10000 }

/-- `detC6` with initialized reciprocal pixel distances. -/
def detC7 : Detector :=
  { detC6 with pixel_distance_reciprocal := [2, 5, 3] }

/-- Geometry collaborator output with one pixel, polarization correction 3
and solid angle 2. -/
def geomC5 : GeomResult := ⟨[], [], [3], [2]⟩

/-- A beam with one photon per pulse and unit focus area. -/
def beamC5 : Beam := ⟨(0, 0, 1), (1, 0, 0), 1, 1⟩

/-- `det0` initialized with `beamC5` against the collaborator returning
`geomC5`, so `linear_correction = [Thomson_factor * 6]`. -/
def detC5 : Detector :=
  initialize_pixels_with_beam (fun _ _ _ _ _ => geomC5) det0 beamC5

/-- A diffraction kernel returning the constant one-pixel field `1 + 0i`. -/
def kernelOne : Particle → List Cx := fun _ => [(1, 0)]

/-- A stand-in complex exponential returning `1 + 0i`. -/
def cisOne : ℚ → Cx := fun _ => (1, 0)

/-- A detector with a single reciprocal pixel position at the origin. -/
def detOnePixel : Detector :=
  { det0 with
    pixel_position_reciprocal := [(0, 0, 0)]
    linear_correction := [1] }

theorem zipWith_mul_map_mul (c : ℚ) :
    ∀ (p a b : List ℚ),
      p.zipWith (· * ·) ((a.zipWith (· * ·) b).map (fun x => c * x)) =
        ((p.zipWith (· * ·) b).zipWith (· * ·) a).map (fun x => c * x)
  | [], _, _ => by simp
  | _ :: _, [], _ => by simp
  | x :: _, _ :: _, [] => by simp
  | x :: p, y :: a, z :: b => by
    simp only [List.map_cons, List.zipWith_cons_cons,
      zipWith_mul_map_mul c p a b, List.cons.injEq, and_true]
    ring

/-- C2: `add_correction_and_quantization` is the sequential composition of
`add_correction` followed by `add_quantization`; both draw, from the same
random state, element-wise Poisson samples with mean the element-wise
product of the pattern and the linear correction array. -/
theorem C2_combined_eq_sequential {σ : Type} (d : Detector)
    (psn : σ → ℚ → ℤ × σ) (s : σ) (pattern : List ℚ) :
    add_correction_and_quantization d psn s pattern =
      add_quantization psn s (add_correction d pattern) ∧
    add_correction_and_quantization d psn s pattern =
      poissonMap psn s (pattern.zipWith (· * ·) d.linear_correction) :=
  ⟨rfl, rfl⟩

/-- C4: after `initialize_pixels_with_beam`, the linear correction array
equals, element-wise, (photons-per-pulse / focus-area) times the Thomson
factor times the polarization correction times the solid angle per pixel,
with the Thomson factor the fixed constant 2.817895019671143² × 10⁻³⁰. -/
theorem C4_linear_correction_formula
    (get_recip : List V3 → V3 → V3 → ℚ → V3 → GeomResult)
    (d : Detector) (beam : Beam) :
    Thomson_factor = 2.817895019671143 ^ 2 * (1 / 10 ^ 30) ∧
    (initialize_pixels_with_beam get_recip d beam).linear_correction =
      ((get_recip d.pixel_position beam.polarization beam.wavevector
          d.pixel_area d.orientation).polarization_correction.zipWith (· * ·)
        (get_recip d.pixel_position beam.polarization beam.wavevector
          d.pixel_area d.orientation).solid_angle_per_pixel).map
        (fun x =>
          beam.photons_per_pulse / beam.focus_area * Thomson_factor * x) := by
  constructor
  · norm_num [Thomson_factor]
  · rfl

/-- C5 counterexample: on a detector whose polarization correction is `[3]`
and solid angle `[2]` (unit intensity), applying solid-angle, then
polarization, then `add_correction` to the pattern `[1]` does NOT give the
same result as a single `add_correction`: the left side carries the
polarization and solid-angle factors twice. -/
theorem C5_counterexample :
    add_correction detC5 (add_polarization_correction detC5
      (add_solid_angle_correction detC5 [1])) ≠ add_correction detC5 [1] := by
  norm_num [add_correction, add_polarization_correction,
    add_solid_angle_correction, detC5, initialize_pixels_with_beam, geomC5,
    beamC5, det0, Thomson_factor]

/-- C5 amended: applying solid-angle correction, then polarization
correction, then the scalar intensity × Thomson factor scale — rather than
a second full `add_correction` — equals applying the single combined
`add_correction` once, on any detector produced by
`initialize_pixels_with_beam` and any pattern. -/
theorem C5_sequential_eq_combined
    (get_recip : List V3 → V3 → V3 → ℚ → V3 → GeomResult)
    (d : Detector) (beam : Beam) (pattern : List ℚ) :
    add_correction (initialize_pixels_with_beam get_recip d beam) pattern =
      (add_polarization_correction (initialize_pixels_with_beam get_recip d beam)
        (add_solid_angle_correction (initialize_pixels_with_beam get_recip d beam)
          pattern)).map
        (fun x =>
          beam.photons_per_pulse / beam.focus_area * Thomson_factor * x) := by
  simp only [add_correction, add_polarization_correction,
    add_solid_angle_correction, initialize_pixels_with_beam]
  exact zipWith_mul_map_mul _ pattern _ _

/-- C6: on a detector with positive distance and positive pixel pitches
(50 μm and 100 μm), `preferred_voxel_length` raises instead of returning
`|wavevector| / (distance * min(pixel_width, pixel_height))`: the source's
`np.min(self.pixel_width, self.pixel_height)` passes `pixel_height` as
numpy's `axis` argument, which is a `TypeError` for a float pitch, whatever
the wavevector norm is. -/
theorem C6_preferred_voxel_length_raises :
    ∀ rt : ℚ → ℚ,
      preferred_voxel_length rt detC6 (1, 0, 0) = .err .axisError :=
  fun _ => rfl

/-- C7: on a detector with positive pixel pitches, positive wavevector
magnitude and initialized reciprocal distances,
`preferred_reciprocal_mesh_number` does not return an odd integer — it
propagates the `TypeError` raised inside `preferred_voxel_length` by
`np.min(pixel_width, pixel_height)`, whatever the square root returns. -/
theorem C7_mesh_number_raises :
    ∀ rt : ℚ → ℚ,
      preferred_reciprocal_mesh_number rt detC7 (1, 0, 0) = .err .axisError :=
  fun _ => rfl

theorem distribute_zero (particles : ParticleCounts) (bfr jr : ℚ)
    (rng : Nat → ℚ) (k : Nat) :
    distribute 0 particles bfr jr rng k = .err .recursionLimit := rfl

theorem distribute_succ (fuel : Nat) (particles : ParticleCounts)
    (bfr jr : ℚ) (rng : Nat → ℚ) (k : Nat) :
    distribute (fuel + 1) particles bfr jr rng k =
      (if (checkList (sampleCoords (totalCount particles) bfr jr rng k)
            (maxRadiusSq particles)).any (fun b => b) then
        match distribute fuel particles bfr jr rng
          (k + 3 * totalCount particles) with
        | .err e => .err e
        | .ok _ =>
          .ok (expandState particles,
            sampleCoords (totalCount particles) bfr jr rng k)
      else
        .ok (expandState particles,
          sampleCoords (totalCount particles) bfr jr rng k)) := rfl

theorem distribute_succ_of_collision (fuel : Nat)
    (particles : ParticleCounts) (bfr jr : ℚ) (rng : Nat → ℚ) (k : Nat)
    (pr : List Particle × List V3)
    (hcol : (checkList (sampleCoords (totalCount particles) bfr jr rng k)
      (maxRadiusSq particles)).any (fun b => b) = true)
    (hrec : distribute fuel particles bfr jr rng
      (k + 3 * totalCount particles) = .ok pr) :
    distribute (fuel + 1) particles bfr jr rng k =
      .ok (expandState particles,
        sampleCoords (totalCount particles) bfr jr rng k) := by
  rw [distribute_succ, if_pos hcol, hrec]

theorem distribute_succ_of_no_collision (fuel : Nat)
    (particles : ParticleCounts) (bfr jr : ℚ) (rng : Nat → ℚ) (k : Nat)
    (hcol : (checkList (sampleCoords (totalCount particles) bfr jr rng k)
      (maxRadiusSq particles)).any (fun b => b) = false) :
    distribute (fuel + 1) particles bfr jr rng k =
      .ok (expandState particles,
        sampleCoords (totalCount particles) bfr jr rng k) := by
  rw [distribute_succ, if_neg (by simp [hcol])]

/-- C1: a colliding candidate set IS returned by `distribute`.  With two
copies of a species of exclusion radius 1 and a random stream whose first
batch puts both particles at the origin (second batch far apart, so the
recursion terminates), `distribute` detects the collision, recurses — and
then returns its own colliding first-batch coordinates, because the source
discards the recursive call's result (`self.distribute(...)` without
`return`).  The returned pair violates the claimed invariant
`dist(i,j) ≥ 2 * radius_max` (in squared form `distSq ≥ 4 * radius_maxSq`). -/
theorem C1_colliding_set_returned :
    distribute 2 [(partC1, 2)] 1 1 rngC1 0 =
      .ok ([partC1, partC1], [(0, 0, 0), (0, 0, 0)]) ∧
    distSq (0, 0, 0) (0, 0, 0) < 4 * maxRadiusSq [(partC1, 2)] := by
  have hmr : maxRadiusSq [(partC1, 2)] = 1 := by
    norm_num [maxRadiusSq, partC1, normSq]
  have htc : totalCount [(partC1, 2)] = 2 := rfl
  have hc1 : sampleCoords 2 1 1 rngC1 0 = [(0, 0, 0), (0, 0, 0)] := by
    norm_num [sampleCoords, rngC1, List.range_succ]
  have hc2 : sampleCoords 2 1 1 rngC1 6 =
      [(-1, -1, -1), (499 / 500, 499 / 500, 499 / 500)] := by
    norm_num [sampleCoords, rngC1, List.range_succ]
  have hk1 : checkList [((0 : ℚ), (0 : ℚ), (0 : ℚ)), (0, 0, 0)] 1 = [true] := by
    norm_num [checkList, distSq, List.range_succ]
  have hk2 : checkList [((-1 : ℚ), (-1 : ℚ), (-1 : ℚ)),
      (499 / 500, 499 / 500, 499 / 500)] 1 = [false] := by
    norm_num [checkList, distSq, List.range_succ]
  have hinner : distribute 1 [(partC1, 2)] 1 1 rngC1 6 =
      .ok (expandState [(partC1, 2)], sampleCoords 2 1 1 rngC1 6) := by
    have h := distribute_succ_of_no_collision 0 [(partC1, 2)] 1 1 rngC1 6
      (by rw [htc, hmr, hc2, hk2]; rfl)
    rw [htc] at h
    exact h
  have houter : distribute 2 [(partC1, 2)] 1 1 rngC1 0 =
      .ok (expandState [(partC1, 2)], sampleCoords 2 1 1 rngC1 0) := by
    have h := distribute_succ_of_collision 1 [(partC1, 2)] 1 1 rngC1 0
      (expandState [(partC1, 2)], sampleCoords 2 1 1 rngC1 6)
      (by rw [htc, hmr, hc1, hk1]; rfl)
      (by rw [htc]; exact hinner)
    rw [htc] at h
    exact h
  constructor
  · rw [houter, hc1]
    rfl
  · rw [hmr]
    norm_num [distSq]

/-- C10: `add_static_noise` draws exactly one uniform sample (the draw
index advances by exactly one), adds that same scalar offset — lying in
`[0, 2·sqrt(3·pixel_rms))` for a positive bound and a unit draw in `[0,1)`
— to every element of the frame, and returns a fresh list (the functional
embedding cannot mutate its input). -/
theorem C10_static_noise_single_draw (rt : ℚ → ℚ) (d : Detector)
    (rng : Nat → ℚ) (k : Nat) (pattern : List ℚ)
    (h0 : 0 ≤ rng k) (h1 : rng k < 1) (hrt : 0 < rt (3 * d.pixel_rms)) :
    (add_static_noise rt d rng k pattern).2 = k + 1 ∧
    (add_static_noise rt d rng k pattern).1 =
      pattern.map (fun x => x + 2 * rt (3 * d.pixel_rms) * rng k) ∧
    0 ≤ 2 * rt (3 * d.pixel_rms) * rng k ∧
    2 * rt (3 * d.pixel_rms) * rng k < 2 * rt (3 * d.pixel_rms) := by
  refine ⟨rfl, ?_, ?_, ?_⟩
  · show pattern.map
        (fun x => x + (0 + (2 * rt (3 * d.pixel_rms) - 0) * rng k)) = _
    congr 1
    funext x
    ring
  · have := mul_nonneg (mul_nonneg (by norm_num : (0 : ℚ) ≤ 2) hrt.le) h0
    linarith
  · nlinarith

theorem C10_static_noise_single_draw_witness :
    (0 : ℚ) ≤ rngHalf 0 ∧ rngHalf 0 < 1 ∧ 0 < rtOne (3 * det0.pixel_rms) ∧
    ((add_static_noise rtOne det0 rngHalf 0 [1, 2]).2 = 0 + 1 ∧
      (add_static_noise rtOne det0 rngHalf 0 [1, 2]).1 =
        [1, 2].map (fun x => x + 2 * rtOne (3 * det0.pixel_rms) * rngHalf 0) ∧
      0 ≤ 2 * rtOne (3 * det0.pixel_rms) * rngHalf 0 ∧
      2 * rtOne (3 * det0.pixel_rms) * rngHalf 0 <
        2 * rtOne (3 * det0.pixel_rms)) :=
  ⟨by norm_num [rngHalf], by norm_num [rngHalf], by norm_num [rtOne],
    C10_static_noise_single_draw rtOne det0 rngHalf 0 [1, 2]
      (by norm_num [rngHalf]) (by norm_num [rngHalf]) (by norm_num [rtOne])⟩

/-- C8: with a single particle (counts summing to 1) the collision check
list is empty, so `distribute` returns on the first attempt — already with
the minimal recursion budget of one attempt — a single coordinate whose x
and y lie in `[-beam_focus_radius, beam_focus_radius]` and whose z lies in
`[-jet_radius, jet_radius]`, given nonnegative radii and unit draws in
`[0,1)`. -/
theorem C8_single_particle_first_attempt (particles : ParticleCounts)
    (bfr jr : ℚ) (rng : Nat → ℚ) (k : Nat)
    (hN : totalCount particles = 1) (hb : 0 ≤ bfr) (hj : 0 ≤ jr)
    (hr : ∀ n, 0 ≤ rng n ∧ rng n < 1) :
    checkList (sampleCoords (totalCount particles) bfr jr rng k)
      (maxRadiusSq particles) = [] ∧
    ∃ x y z,
      distribute 1 particles bfr jr rng k =
        .ok (expandState particles, [(x, y, z)]) ∧
      -bfr ≤ x ∧ x ≤ bfr ∧ -bfr ≤ y ∧ y ≤ bfr ∧ -jr ≤ z ∧ z ≤ jr := by
  have hsc : sampleCoords 1 bfr jr rng k =
      [(bfr * (-1 + 2 * rng k), bfr * (-1 + 2 * rng (k + 1)),
        jr * (-1 + 2 * rng (k + 2)))] := by
    simp [sampleCoords, List.range_succ]
  have hck : checkList (sampleCoords (totalCount particles) bfr jr rng k)
      (maxRadiusSq particles) = [] := by
    rw [hN, hsc]
    simp [checkList, List.range_succ]
  refine ⟨hck, bfr * (-1 + 2 * rng k), bfr * (-1 + 2 * rng (k + 1)),
    jr * (-1 + 2 * rng (k + 2)), ?_, ?_, ?_, ?_, ?_, ?_, ?_⟩
  · have h := distribute_succ_of_no_collision 0 particles bfr jr rng k
      (by rw [hck]; rfl)
    rw [hN, hsc] at h
    exact h
  · nlinarith [(hr k).1, (hr k).2]
  · nlinarith [(hr k).1, (hr k).2]
  · nlinarith [(hr (k + 1)).1, (hr (k + 1)).2]
  · nlinarith [(hr (k + 1)).1, (hr (k + 1)).2]
  · nlinarith [(hr (k + 2)).1, (hr (k + 2)).2]
  · nlinarith [(hr (k + 2)).1, (hr (k + 2)).2]

theorem C8_single_particle_first_attempt_witness :
    totalCount [(partOrigin, 1)] = 1 ∧ (0 : ℚ) ≤ 1 ∧ (0 : ℚ) ≤ 1 ∧
    (∀ n, 0 ≤ rngHalf n ∧ rngHalf n < 1) ∧
    (checkList (sampleCoords (totalCount [(partOrigin, 1)]) 1 1 rngHalf 0)
      (maxRadiusSq [(partOrigin, 1)]) = [] ∧
    ∃ x y z,
      distribute 1 [(partOrigin, 1)] 1 1 rngHalf 0 =
        .ok (expandState [(partOrigin, 1)], [(x, y, z)]) ∧
      -1 ≤ x ∧ x ≤ 1 ∧ -1 ≤ y ∧ y ≤ 1 ∧ -1 ≤ z ∧ z ≤ 1) :=
  ⟨rfl, by norm_num, by norm_num, fun n => by norm_num [rngHalf],
    C8_single_particle_first_attempt [(partOrigin, 1)] 1 1 rngHalf 0 rfl
      (by norm_num) (by norm_num) (fun n => by norm_num [rngHalf])⟩

theorem expandState_of_total_zero :
    ∀ particles : ParticleCounts, totalCount particles = 0 →
      expandState particles = []
  | [], _ => rfl
  | (p, n) :: rest, h => by
    have hn : n = 0 ∧ (rest.map (fun pn => pn.2)).sum = 0 := by
      simpa [totalCount] using h
    have hrest : expandState rest = [] :=
      expandState_of_total_zero rest (by simpa [totalCount] using hn.2)
    simp only [expandState] at hrest ⊢
    simp [hn.1, hrest]

/-- C9: with an empty particle-counts mapping (or all counts zero), the
`get_fxs_photons` loop body never runs, the coherent accumulator stays
`None`, and the call raises (at `np.abs(raw_data)`) instead of returning a
zero image — for any recursion budget that lets `distribute` return. -/
theorem C9_zero_particles_raises {σ : Type} (fuel : Nat)
    (kernel : Particle → List Cx) (cis : ℚ → Cx) (c : ℚ) (d : Detector)
    (psn : σ → ℚ → ℤ × σ) (s : σ) (particles : ParticleCounts)
    (bfr jr : ℚ) (rng : Nat → ℚ) (k : Nat)
    (hN : totalCount particles = 0) :
    get_fxs_photons (fuel + 1) kernel cis c d psn s particles bfr jr rng k =
      .err .noneAbsError := by
  have hsc : sampleCoords 0 bfr jr rng k = [] := by simp [sampleCoords]
  have hck : (checkList (sampleCoords (totalCount particles) bfr jr rng k)
      (maxRadiusSq particles)).any (fun b => b) = false := by
    rw [hN, hsc]
    rfl
  have hd := distribute_succ_of_no_collision fuel particles bfr jr rng k hck
  rw [hN, hsc] at hd
  rw [expandState_of_total_zero particles hN] at hd
  simp [get_fxs_photons, hd]

theorem C9_zero_particles_raises_witness :
    totalCount ([] : ParticleCounts) = 0 ∧
    get_fxs_photons 1 kernelOne cisOne 0 det0 psnZero ()
      ([] : ParticleCounts) 1 1 rngHalf 0 = .err .noneAbsError :=
  ⟨rfl, C9_zero_particles_raises 0 kernelOne cisOne 0 det0 psnZero ()
    ([] : ParticleCounts) 1 1 rngHalf 0 rfl⟩

theorem sampleCoords_length (N : Nat) (bfr jr : ℚ) (rng : Nat → ℚ)
    (k : Nat) : (sampleCoords N bfr jr rng k).length = N := by
  simp [sampleCoords]

theorem expandState_length (particles : ParticleCounts) :
    (expandState particles).length = totalCount particles := by
  induction particles with
  | nil => rfl
  | cons pn rest ih =>
    simp only [expandState, totalCount] at ih
    simp only [expandState, totalCount, List.map_cons, List.flatten_cons,
      List.length_append, List.length_replicate, List.sum_cons, ih]

theorem distribute_ok_shape (fuel : Nat) (particles : ParticleCounts)
    (bfr jr : ℚ) (rng : Nat → ℚ) (k : Nat) (st : List Particle)
    (co : List V3)
    (h : distribute fuel particles bfr jr rng k = .ok (st, co)) :
    st = expandState particles ∧ co.length = totalCount particles := by
  cases fuel with
  | zero =>
    rw [distribute_zero] at h
    exact absurd h (by simp)
  | succ fuel =>
    rw [distribute_succ] at h
    split at h
    · split at h
      · exact absurd h (by simp)
      · simp only [PyResult.ok.injEq, Prod.mk.injEq] at h
        exact ⟨h.1.symm, by rw [← h.2, sampleCoords_length]⟩
    · simp only [PyResult.ok.injEq, Prod.mk.injEq] at h
      exact ⟨h.1.symm, by rw [← h.2, sampleCoords_length]⟩

theorem zipWith_cadd_replicate_zero (f : List Cx) (n : Nat)
    (h : f.length = n) :
    (List.replicate n ((0 : ℚ), (0 : ℚ))).zipWith cadd f = f := by
  subst h
  induction f with
  | nil => rfl
  | cons z f ih =>
    simp only [List.length_cons, List.replicate_succ, List.zipWith_cons_cons,
      ih, List.cons.injEq, and_true]
    simp [cadd]

theorem foldl_zipWith_cadd_from_zero (n : Nat) (f : List Cx)
    (fs : List (List Cx)) (h : f.length = n) :
    (f :: fs).foldl (fun acc g => acc.zipWith cadd g)
      (List.replicate n ((0 : ℚ), (0 : ℚ))) =
      fs.foldl (fun acc g => acc.zipWith cadd g) f := by
  rw [List.foldl_cons, zipWith_cadd_replicate_zero f n h]

/-- C3: whenever placement succeeds with at least one placed particle,
`get_fxs_photons` computes exactly the specification formula: each placed
particle's complex field is phase-shifted by
`exp(i * 2π * 1e-10 * dot(pixel_position_reciprocal, coord_i))`, the
phase-shifted fields are summed by complex addition, the sum becomes an
intensity by squared magnitude, and the intensity goes through the combined
linear-correction-plus-Poisson-quantization primitive
(`fxs_photons_spec`).  `hk` says the external kernel produces one complex
value per reciprocal pixel. -/
theorem C3_get_fxs_photons_formula {σ : Type} (fuel : Nat)
    (kernel : Particle → List Cx) (cis : ℚ → Cx) (c : ℚ) (d : Detector)
    (psn : σ → ℚ → ℤ × σ) (s : σ) (particles : ParticleCounts)
    (bfr jr : ℚ) (rng : Nat → ℚ) (k : Nat) (state : List Particle)
    (coords : List V3)
    (hk : ∀ p, (kernel p).length = d.pixel_position_reciprocal.length)
    (hd : distribute fuel particles bfr jr rng k = .ok (state, coords))
    (hne : state ≠ []) :
    get_fxs_photons fuel kernel cis c d psn s particles bfr jr rng k =
      .ok (fxs_photons_spec kernel cis c d psn s state coords) := by
  have hF : ∀ px : Particle × V3,
      ((kernel px.1).zipWith cmul
        (d.pixel_position_reciprocal.map
          (fun r => cis (c * dot3 r px.2)))).length =
        d.pixel_position_reciprocal.length := by
    intro px
    simp [List.length_zipWith, hk px.1]
  simp only [get_fxs_photons, fxs_photons_spec, hd]
  cases hzip : state.zip coords with
  | nil =>
    obtain ⟨hst, hco⟩ :=
      distribute_ok_shape fuel particles bfr jr rng k state coords hd
    have hlen : state.length = coords.length := by
      rw [hst, expandState_length, hco]
    cases state with
    | nil => exact absurd rfl hne
    | cons p ps =>
      cases coords with
      | nil => simp at hlen
      | cons q qs => simp at hzip
  | cons px rest =>
    simp only [List.map_cons]
    rw [foldl_zipWith_cadd_from_zero d.pixel_position_reciprocal.length _ _
      (hF px)]

theorem C3_get_fxs_photons_formula_witness :
    (∀ p, (kernelOne p).length =
      detOnePixel.pixel_position_reciprocal.length) ∧
    distribute 1 [(partOrigin, 1)] 1 1 rngHalf 0 =
      .ok ([partOrigin], [((0 : ℚ), (0 : ℚ), (0 : ℚ))]) ∧
    ([partOrigin] : List Particle) ≠ [] ∧
    get_fxs_photons 1 kernelOne cisOne 0 detOnePixel psnZero ()
      [(partOrigin, 1)] 1 1 rngHalf 0 =
      .ok (fxs_photons_spec kernelOne cisOne 0 detOnePixel psnZero ()
        [partOrigin] [((0 : ℚ), (0 : ℚ), (0 : ℚ))]) := by
  have hs : sampleCoords 1 1 1 rngHalf 0 = [((0 : ℚ), (0 : ℚ), (0 : ℚ))] := by
    norm_num [sampleCoords, rngHalf, List.range_succ]
  have hd : distribute 1 [(partOrigin, 1)] 1 1 rngHalf 0 =
      .ok ([partOrigin], [((0 : ℚ), (0 : ℚ), (0 : ℚ))]) := by
    have h := distribute_succ_of_no_collision 0 [(partOrigin, 1)] 1 1
      rngHalf 0 rfl
    rw [show totalCount [(partOrigin, 1)] = 1 from rfl, hs] at h
    exact h
  exact ⟨fun _ => rfl, hd, by simp,
    C3_get_fxs_photons_formula 1 kernelOne cisOne 0 detOnePixel psnZero ()
      [(partOrigin, 1)] 1 1 rngHalf 0 [partOrigin]
      [((0 : ℚ), (0 : ℚ), (0 : ℚ))] (fun _ => rfl) hd (by simp)⟩

end Pysingfel
